import Mathlib

/-!
Verification of the `no-server-imports` ESLint rule
(`packages/eslint-plugin-no-server-imports/src/index.ts`).

The rule is embedded shallowly:
* module-specifier classification, option merging, binding collection,
  boundary-scope discovery and the final reconciliation pass are translated
  directly from the source file;
* the host parser/visitor is modelled by a list of visitor events (the rule
  registers handlers for `ImportDeclaration`, `CallExpression`,
  `ExportAllDeclaration`, `ExportNamedDeclaration` and `Program:exit`; every
  other node kind is unhandled and is represented by events the step function
  ignores);
* the host scope facility (`sourceCode.getDeclaredVariables`) is modelled by
  the variable lists attached to declaration events, and the mutable
  `.parent` ancestor chain used by `isNodeInsideScope` is modelled by the
  list of enclosing function-node ids attached to each node, following the
  ancestor-chain membership reading of the walk in the source;
* glob matching (the `picomatch` library) is an external capability and is
  modelled by an abstract matcher function.
-/

/-- Model of JavaScript `String.prototype.startsWith` on character lists:
`charsStartWith s p` is true when `p` is an initial segment of `s`. -/
def charsStartWith : List Char → List Char → Bool
  | _, [] => true
  | [], _ :: _ => false
  | c :: cs, p :: ps => c == p && charsStartWith cs ps

/-- Model of JavaScript `String.prototype.startsWith`. -/
def jsStartsWith (s p : String) : Bool :=
  charsStartWith s.data p.data

/-- Model of JavaScript `String.prototype.replaceAll` with a single-character
pattern, as used to normalize Windows paths (`replaceAll('\\', '/')`). -/
def replaceBackslashes (s : String) : String :=
  String.mk (s.data.map fun c => if c = '\\' then '/' else c)

/-- Default server-only modules (`DEFAULT_SERVER_MODULES` in the source). -/
def DEFAULT_SERVER_MODULES : List String := [
  "pino", "pino-pretty", "pino-roll", "winston", "bunyan",
  "better-sqlite3", "pg", "mysql2", "mongodb", "mongoose", "prisma",
  "@prisma/client", "drizzle-orm", "kysely", "@libsql/client", "libsql",
  "@mikro-orm/core", "@mikro-orm/knex", "sqlite3",
  "argon2", "@node-rs/argon2", "bcrypt", "@node-rs/bcrypt", "oslo",
  "@aws-sdk/client-s3", "@aws-sdk/s3-presigned-post", "aws-crt",
  "@appsignal/nodejs", "@highlight-run/node", "@sentry/profiling-node",
  "dd-trace", "newrelic", "@statsig/statsig-node-core",
  "@huggingface/transformers", "@xenova/transformers",
  "chromadb-default-embed", "onnxruntime-node",
  "@blockfrost/blockfrost-js", "@jpg-store/lucid-cardano",
  "@swc/core", "autoprefixer", "postcss", "prettier", "typescript",
  "ts-node", "ts-morph", "webpack", "eslint",
  "cypress", "jest", "playwright", "playwright-core", "puppeteer",
  "puppeteer-core",
  "@sparticuz/chromium", "@sparticuz/chromium-min",
  "@react-pdf/renderer", "mdx-bundler", "next-mdx-remote", "next-seo",
  "shiki", "vscode-oniguruma",
  "canvas", "sharp",
  "config", "keyv", "node-cron", "rimraf", "thread-stream",
  "@alinea/generated", "@zenstackhq/runtime", "express", "firebase-admin",
  "htmlrewriter",
  "cpu-features", "isolated-vm", "node-pty", "node-web-audio-api",
  "websocket", "zeromq",
  "import-in-the-middle", "require-in-the-middle",
  "jsdom",
  "ravendb",
  "fs", "node:fs", "fs/promises", "node:fs/promises", "path", "node:path",
  "crypto", "node:crypto", "child_process", "node:child_process",
  "os", "node:os", "net", "node:net", "dns", "node:dns",
  "cluster", "node:cluster", "worker_threads", "node:worker_threads"]

/-- Default server-file glob patterns (`DEFAULT_SERVER_FILE_PATTERNS`). -/
def DEFAULT_SERVER_FILE_PATTERNS : List String := [
  "**/*.server.ts", "**/*.server.tsx", "**/*.server.js",
  "**/server/**", "**/api/**", "**/_server/**"]

/-- Default client-file glob patterns (`DEFAULT_CLIENT_FILE_PATTERNS`). -/
def DEFAULT_CLIENT_FILE_PATTERNS : List String := [
  "**/routes/**", "**/pages/**", "**/components/**", "**/islands/**",
  "**/src/app/**"]

/-- The `mode` option of the rule. -/
inductive Mode where
  | clientOnly
  | allNonServer
deriving DecidableEq, Repr

/-- The user-supplied rule options (`RuleOptions` in the source); absent
fields are `none`. -/
structure RuleOptions where
  serverModules : Option (List String) := none
  serverFilePatterns : Option (List String) := none
  clientFilePatterns : Option (List String) := none
  ignoreFiles : Option (List String) := none
  checkServerOnlyMarker : Option Bool := none
  checkServerFunctions : Option Bool := none
  serverFunctionNames : Option (List String) := none
  reportUnusedImports : Option Bool := none
  mode : Option Mode := none
  serverExternalPackages : Option (List String) := none

/-- The effective configuration after merging with defaults. -/
structure Config where
  serverModules : List String
  serverFilePatterns : List String
  clientFilePatterns : List String
  ignoreFiles : List String
  checkServerOnlyMarker : Bool
  checkServerFunctions : Bool
  serverFunctionNames : List String
  reportUnusedImports : Bool
  mode : Mode

/-- Option merging at the top of `create` (source lines 509-531): server
modules and server file patterns merge with the defaults, client file
patterns replace the defaults, and the boolean/mode options default as in
the source. -/
def mergeOptions (options : RuleOptions) : Config where
  serverModules :=
    DEFAULT_SERVER_MODULES ++ options.serverModules.getD []
      ++ options.serverExternalPackages.getD []
  serverFilePatterns :=
    DEFAULT_SERVER_FILE_PATTERNS ++ options.serverFilePatterns.getD []
  clientFilePatterns :=
    options.clientFilePatterns.getD DEFAULT_CLIENT_FILE_PATTERNS
  ignoreFiles := options.ignoreFiles.getD []
  checkServerOnlyMarker := options.checkServerOnlyMarker.getD true
  checkServerFunctions := options.checkServerFunctions.getD true
  serverFunctionNames := options.serverFunctionNames.getD
    ["createServerFn", "createIsomorphicFn", "server$", "action$", "loader$"]
  reportUnusedImports := options.reportUnusedImports.getD true
  mode := options.mode.getD Mode.clientOnly

/-- A literal value as it appears in a source position the rule inspects
with `typeof value === "string"` checks. -/
inductive LitVal where
  | str (value : String)
  | nonStr
deriving DecidableEq, Repr

/-- An import specifier of an `ImportDeclaration`
(`ImportDefaultSpecifier`, `ImportNamespaceSpecifier` or `ImportSpecifier`
with its `importKind`). -/
inductive ImportSpecifier where
  | importDefaultSpecifier (localName : String)
  | importNamespaceSpecifier (localName : String)
  | importSpecifier (typeOnly : Bool) (localName : String)
deriving DecidableEq, Repr

/-- A reference to a declared variable, as provided by the host scope
facility: its `isRead` classification and the ids of the function nodes the
reference identifier is lexically nested in (its ancestor chain restricted
to function nodes; boundary scopes are always function nodes, so the
ancestor walk of `isNodeInsideScope` only ever succeeds on these). -/
structure Reference where
  isRead : Bool
  enclosingFnIds : List Nat
deriving DecidableEq, Repr

/-- A variable returned by `sourceCode.getDeclaredVariables`. -/
structure Variable where
  name : String
  references : List Reference
deriving DecidableEq, Repr

/-- An `ImportDeclaration` node together with the host-provided declared
variables for it. -/
structure ImportDecl where
  nodeId : Nat
  source : LitVal
  importKindIsType : Bool
  specifiers : List ImportSpecifier
  declaredVariables : List Variable
deriving DecidableEq, Repr

/-- An `ExportAllDeclaration` node (`export * from "mod"`). -/
structure ExportAllDecl where
  nodeId : Nat
  source : LitVal
  exportKindIsType : Bool
deriving DecidableEq, Repr

/-- A specifier of an `ExportNamedDeclaration`; only its `exportKind`
matters to the rule. -/
structure ExportNamedSpecifier where
  exportKindIsType : Bool
deriving DecidableEq, Repr

/-- An `ExportNamedDeclaration` node; `source` is `none` for exports
without a `from` clause. -/
structure ExportNamedDecl where
  nodeId : Nat
  source : Option LitVal
  exportKindIsType : Bool
  specifiers : List ExportNamedSpecifier
deriving DecidableEq, Repr

/-- Expressions, restricted to the shapes the rule inspects: identifiers,
literals, member accesses, calls, and function-valued arguments
(`FunctionExpression` / `ArrowFunctionExpression`, identified by a node
id). -/
inductive Expr where
  | ident (name : String)
  | strLit (value : String)
  | otherLit
  | member (obj : Expr) (prop : String)
  | call (callee : Expr) (args : List Expr)
  | fnExpr (fnId : Nat)
  | otherExpr

/-- The parent context of a visited `CallExpression`, covering the parent
shapes the handler inspects: a `VariableDeclarator` parent (carrying the
host's `getDeclaredVariables` result for the surrounding
`VariableDeclaration`, or `none` when the declarator has no
`VariableDeclaration` parent), a `MemberExpression` parent whose own parent
is a `CallExpression` (a chained call, carrying the outer call's arguments
and context), or anything else. -/
inductive ParentCtx where
  | varDeclarator (declVars : Option (List Variable))
  | memberCall (prop : String) (outerArgs : List Expr) (rest : ParentCtx)
  | otherParent

/-- A visited `CallExpression` node: its expression, parent context, node
id and the ids of the function nodes it is lexically nested in. -/
structure CallVisit where
  nodeId : Nat
  expr : Expr
  parent : ParentCtx
  enclosingFnIds : List Nat

/-- A visitor event delivered by the host traversal. The rule registers
handlers only for the first four kinds; `importExpression` (a dynamic
`import()` expression) and `otherNode` have no handler. -/
inductive Event where
  | importDeclaration (d : ImportDecl)
  | callExpression (c : CallVisit)
  | exportAllDeclaration (d : ExportAllDecl)
  | exportNamedDeclaration (d : ExportNamedDecl)
  | importExpression (source : LitVal)
  | otherNode

/-- A top-level statement, restricted to what the suggestion logic
inspects: an `ExpressionStatement` whose expression is a string `Literal`
(a directive-prologue candidate), or anything else. -/
inductive Stmt where
  | stringLiteralStatement (value : String)
  | otherStatement (tag : Nat)
deriving DecidableEq, Repr

/-- The analyzed file: its raw filename, its top-level statement list, the
result of the marker-presence regex test on its text
(`/^import\s+['"]server-only['"]/m`), and the visitor events its traversal
produces. -/
structure SourceFile where
  rawFilename : String
  body : List Stmt
  markerRegexMatches : Bool
  events : List Event

/-- Checks if an import declaration has any value (non-type) specifiers
(`hasValueImportSpecifiers`, source lines 201-227). -/
def hasValueImportSpecifiers (node : ImportDecl) : Bool :=
  if node.importKindIsType then false
  else if node.specifiers.isEmpty then true
  else node.specifiers.any fun specifier =>
    match specifier with
    | ImportSpecifier.importDefaultSpecifier _ => true
    | ImportSpecifier.importNamespaceSpecifier _ => true
    | ImportSpecifier.importSpecifier typeOnly _ => !typeOnly

/-- Checks if an export declaration has any value (non-type) specifiers
(`hasValueExportSpecifiers`, source lines 233-248). -/
def hasValueExportSpecifiers (node : ExportNamedDecl) : Bool :=
  if node.exportKindIsType then false
  else if node.specifiers.isEmpty then true
  else node.specifiers.any fun specifier => !specifier.exportKindIsType

/-- Gets the local names of value imports (`getValueImportNames`, source
lines 253-275). -/
def getValueImportNames (node : ImportDecl) : List String :=
  if node.importKindIsType then []
  else node.specifiers.filterMap fun specifier =>
    match specifier with
    | ImportSpecifier.importDefaultSpecifier n => some n
    | ImportSpecifier.importNamespaceSpecifier n => some n
    | ImportSpecifier.importSpecifier typeOnly n =>
        if typeOnly then none else some n

/-- Checks if a node is inside a given scope (`isNodeInsideScope`, source
lines 280-289): the walk up the `.parent` chain is modelled by membership
of the scope's id in the node's enclosing-function-id list (scopes are
always function nodes). -/
def isNodeInsideScope (enclosingFnIds : List Nat) (scopeId : Nat) : Bool :=
  decide (scopeId ∈ enclosingFnIds)

/-- Checks whether a node is inside any collected server-function scope
(`isInsideServerScope`, source lines 713-720). -/
def isInsideServerScope (serverFunctionScopes : List Nat)
    (enclosingFnIds : List Nat) : Bool :=
  serverFunctionScopes.any fun scope => isNodeInsideScope enclosingFnIds scope

/-- Checks if an import source is a server-only module
(`isServerOnlyModule`, source lines 587-596): exact membership first, then
the subpath rule. -/
def isServerOnlyModule (serverModules : List String)
    (importSource : String) : Bool :=
  if importSource ∈ serverModules then true
  else serverModules.any fun m => jsStartsWith importSource (m ++ "/")

/-- Recursively finds the root server function call from a chained call
(`findServerFunctionCall`, source lines 602-618). -/
def findServerFunctionCall (serverFunctionNames : List String) :
    Expr → Option Expr
  | Expr.call (Expr.ident n) args =>
      if n ∈ serverFunctionNames then some (Expr.call (Expr.ident n) args)
      else none
  | Expr.call (Expr.member (Expr.call c a) _) _ =>
      findServerFunctionCall serverFunctionNames (Expr.call c a)
  | _ => none

/-- Tests whether an argument is a function-valued expression
(`ArrowFunctionExpression` or `FunctionExpression`). -/
def isFunctionArg : Expr → Bool
  | Expr.fnExpr _ => true
  | _ => false

/-- Extracts all function arguments from a call-expression chain
(`extractCallbacksFromChain`, source lines 623-651): collect the function
arguments of the visited call, then while the parent is a
`MemberExpression` whose parent is a `CallExpression`, move to that outer
call and collect its function arguments too. -/
def extractCallbacksFromChain : Expr → ParentCtx → List Expr
  | Expr.call c args, ParentCtx.memberCall p outerArgs rest =>
      args.filter isFunctionArg ++
        extractCallbacksFromChain
          (Expr.call (Expr.member (Expr.call c args) p) outerArgs) rest
  | Expr.call _ args, _ => args.filter isFunctionArg
  | _, _ => []

/-- Gets the string value from a `require()` call argument
(`getRequireSource`, source lines 656-668). -/
def getRequireSource : Expr → Option String
  | Expr.call (Expr.ident "require") (arg :: _) =>
      match arg with
      | Expr.strLit v => some v
      | _ => none
  | _ => none

/-- Checks if the current file should be ignored (`shouldIgnoreFile`,
source lines 558-566), with glob matching abstracted as a capability. -/
def shouldIgnoreFile (glob : List String → String → Bool)
    (ignoreFiles : List String) (filename : String) : Bool :=
  if !ignoreFiles.isEmpty then glob ignoreFiles filename else false

/-- Checks if the file is a server-only file (`isServerFile`, source lines
571-574). -/
def isServerFile (glob : List String → String → Bool)
    (serverFilePatterns : List String) (filename : String) : Bool :=
  glob serverFilePatterns filename

/-- Checks if the file is a client file (`isClientFile`, source lines
579-582). -/
def isClientFile (glob : List String → String → Bool)
    (clientFilePatterns : List String) (filename : String) : Bool :=
  glob clientFilePatterns filename

/-- Checks if a statement is a directive prologue (`isDirectivePrologue`,
source lines 294-300). -/
def isDirectivePrologue : Stmt → Bool
  | Stmt.stringLiteralStatement _ => true
  | _ => false

/-- Checks if the file has a `use client` directive
(`hasUseClientDirective`, source lines 305-315): scan the directive
prologue, stopping at the first non-directive statement. -/
def hasUseClientDirective : List Stmt → Bool
  | [] => false
  | Stmt.stringLiteralStatement v :: rest =>
      if v == "use client" then true else hasUseClientDirective rest
  | _ :: _ => false

/-- Counts the leading directive-prologue statements (the `insertIndex`
loop of `findServerOnlyMarkerInsertNode`, source lines 335-342). -/
def countLeadingDirectives : List Stmt → Nat
  | [] => 0
  | st :: rest =>
      if isDirectivePrologue st then countLeadingDirectives rest + 1 else 0

/-- Finds the statement to insert the server-only marker before
(`findServerOnlyMarkerInsertNode`, source lines 324-350), returning its
index in the body; `none` when the body is empty or consists entirely of
directive prologues. -/
def findServerOnlyMarkerInsertNode (body : List Stmt) : Option Nat :=
  if body.isEmpty then none
  else
    let insertIndex := countLeadingDirectives body
    if body.length ≤ insertIndex then none
    else some insertIndex

/-- The observable effect of a fixer edit: text inserted before the
statement at an index, or text inserted at a character range
(`fixer.insertTextBefore` / `fixer.insertTextBeforeRange([p, p], ...)`). -/
inductive FixResult where
  | insertTextBeforeStmt (index : Nat) (text : String)
  | insertTextBeforeRange (pos : Nat) (text : String)
deriving DecidableEq, Repr

/-- Creates the server-only marker suggestion
(`createServerOnlyMarkerSuggestion`, source lines 357-388): no suggestion
in `use client` files; a no-op edit when the marker text is already
present; otherwise insert the marker import before the found statement, or
at character range `[0, 0]` when no statement is found. -/
def createServerOnlyMarkerSuggestion (body : List Stmt)
    (markerRegexMatches : Bool) : List FixResult :=
  if hasUseClientDirective body then []
  else if markerRegexMatches then [FixResult.insertTextBeforeRange 0 ""]
  else
    match findServerOnlyMarkerInsertNode body with
    | some index =>
        [FixResult.insertTextBeforeStmt index "import \x27server-only\x27;\n"]
    | none =>
        [FixResult.insertTextBeforeRange 0 "import \x27server-only\x27;\n"]

/-- Suggestions for import violations (`createImportSuggestions`). -/
def createImportSuggestions (body : List Stmt)
    (markerRegexMatches : Bool) : List FixResult :=
  createServerOnlyMarkerSuggestion body markerRegexMatches

/-- Suggestions for side-effect import violations
(`createSideEffectImportSuggestions`; the module-name argument is
unused in the source). -/
def createSideEffectImportSuggestions (_moduleName : String)
    (body : List Stmt) (markerRegexMatches : Bool) : List FixResult :=
  createServerOnlyMarkerSuggestion body markerRegexMatches

/-- Suggestions for require violations (`createRequireSuggestions`). -/
def createRequireSuggestions (body : List Stmt)
    (markerRegexMatches : Bool) : List FixResult :=
  createServerOnlyMarkerSuggestion body markerRegexMatches

/-- Suggestions for re-export violations (`createReexportSuggestions`). -/
def createReexportSuggestions (body : List Stmt)
    (markerRegexMatches : Bool) : List FixResult :=
  createServerOnlyMarkerSuggestion body markerRegexMatches

/-- A tracked server-only import (`ServerImport` in `create`): the module,
the declaration node and the declared value variables. -/
structure ServerImport where
  module : String
  nodeId : Nat
  vars : List Variable
deriving DecidableEq, Repr

/-- A tracked server-only require (`ServerRequire` in `create`): the
module, the `require()` call node (with its enclosing function ids) and the
declared variables of the surrounding declaration. -/
structure ServerRequire where
  module : String
  nodeId : Nat
  enclosingFnIds : List Nat
  vars : List Variable
deriving DecidableEq, Repr

/-- A collected bare-require candidate (`bareRequireViolations`): reported
at `Program:exit` when outside every server scope. -/
structure BareRequireViolation where
  nodeId : Nat
  module : String
  enclosingFnIds : List Nat
deriving DecidableEq, Repr

/-- A collected side-effect-import candidate
(`sideEffectImportViolations`). -/
structure SideEffectImportViolation where
  nodeId : Nat
  module : String
deriving DecidableEq, Repr

/-- A collected re-export candidate (`reexportViolations`). -/
structure ReexportViolation where
  nodeId : Nat
  module : String
deriving DecidableEq, Repr

/-- The per-file mutable state of `create` (source lines 542-553 and
688-711), created fresh for each analysis. -/
structure AnalysisState where
  hasServerOnlyImport : Bool
  serverOnlyImports : List ServerImport
  serverFunctionScopes : List Nat
  serverOnlyRequires : List ServerRequire
  bareRequireViolations : List BareRequireViolation
  sideEffectImportViolations : List SideEffectImportViolation
  reexportViolations : List ReexportViolation

/-- The initial (empty) per-file state. -/
def initState : AnalysisState where
  hasServerOnlyImport := false
  serverOnlyImports := []
  serverFunctionScopes := []
  serverOnlyRequires := []
  bareRequireViolations := []
  sideEffectImportViolations := []
  reexportViolations := []

/-- The `ImportDeclaration` handler (source lines 724-763): detect the
`server-only` marker, skip non-server and type-only imports, collect
side-effect imports, and otherwise track the import with its declared
value variables. -/
def stepImportDeclaration (cfg : Config) (s : AnalysisState)
    (node : ImportDecl) : AnalysisState :=
  if cfg.checkServerOnlyMarker && node.source == LitVal.str "server-only" then
    { s with hasServerOnlyImport := true }
  else
    match node.source with
    | LitVal.nonStr => s
    | LitVal.str source =>
      if !isServerOnlyModule cfg.serverModules source then s
      else if !hasValueImportSpecifiers node then s
      else if node.specifiers.isEmpty then
        { s with sideEffectImportViolations :=
            s.sideEffectImportViolations ++ [⟨node.nodeId, source⟩] }
      else
        let valueNames := getValueImportNames node
        let vars := node.declaredVariables.filter fun v =>
          v.name ∈ valueNames
        if vars.length > 0 then
          { s with serverOnlyImports :=
              s.serverOnlyImports ++ [⟨source, node.nodeId, vars⟩] }
        else s

/-- Projects a collected callback (always a function-valued argument) to
its function-node id, for insertion into the scope set. -/
def callbackFnId : Expr → Option Nat
  | Expr.fnExpr fnId => some fnId
  | _ => none

/-- The `CallExpression` handler (source lines 765-816): detect marker and
server-module `require()` calls (tracked through a variable declarator when
possible, otherwise collected as bare-require candidates), then discover
server-function call chains and register every function argument of the
chain as a boundary scope. -/
def stepCallExpression (cfg : Config) (s : AnalysisState)
    (node : CallVisit) : AnalysisState :=
  match getRequireSource node.expr with
  | some requireSource =>
    if cfg.checkServerOnlyMarker && requireSource == "server-only" then
      { s with hasServerOnlyImport := true }
    else if isServerOnlyModule cfg.serverModules requireSource then
      match node.parent with
      | ParentCtx.varDeclarator (some vars) =>
        if vars.length > 0 then
          { s with serverOnlyRequires := s.serverOnlyRequires ++
              [⟨requireSource, node.nodeId, node.enclosingFnIds, vars⟩] }
        else
          { s with bareRequireViolations := s.bareRequireViolations ++
              [⟨node.nodeId, requireSource, node.enclosingFnIds⟩] }
      | _ =>
          { s with bareRequireViolations := s.bareRequireViolations ++
              [⟨node.nodeId, requireSource, node.enclosingFnIds⟩] }
    else s
  | none =>
    if !cfg.checkServerFunctions then s
    else
      match findServerFunctionCall cfg.serverFunctionNames node.expr with
      | some _ =>
          let callbacks := extractCallbacksFromChain node.expr node.parent
          { s with serverFunctionScopes :=
              s.serverFunctionScopes ++ callbacks.filterMap callbackFnId }
      | none => s

/-- The `ExportAllDeclaration` handler (source lines 819-831). -/
def stepExportAllDeclaration (cfg : Config) (s : AnalysisState)
    (node : ExportAllDecl) : AnalysisState :=
  if node.exportKindIsType then s
  else
    match node.source with
    | LitVal.str source =>
      if isServerOnlyModule cfg.serverModules source then
        { s with reexportViolations :=
            s.reexportViolations ++ [⟨node.nodeId, source⟩] }
      else s
    | LitVal.nonStr => s

/-- The `ExportNamedDeclaration` handler (source lines 833-849). -/
def stepExportNamedDeclaration (cfg : Config) (s : AnalysisState)
    (node : ExportNamedDecl) : AnalysisState :=
  match node.source with
  | none => s
  | some LitVal.nonStr => s
  | some (LitVal.str source) =>
    if !isServerOnlyModule cfg.serverModules source then s
    else if !hasValueExportSpecifiers node then s
    else
      { s with reexportViolations :=
          s.reexportViolations ++ [⟨node.nodeId, source⟩] }

/-- Dispatch of one visitor event to its handler; dynamic `import()`
expressions and all other node kinds have no handler and leave the state
unchanged. -/
def step (cfg : Config) (s : AnalysisState) : Event → AnalysisState
  | Event.importDeclaration d => stepImportDeclaration cfg s d
  | Event.callExpression c => stepCallExpression cfg s c
  | Event.exportAllDeclaration d => stepExportAllDeclaration cfg s d
  | Event.exportNamedDeclaration d => stepExportNamedDeclaration cfg s d
  | Event.importExpression _ => s
  | Event.otherNode => s

/-- The collection phase: fold the handlers over the host's visitor events
starting from the fresh per-file state. -/
def runVisitor (cfg : Config) (events : List Event) : AnalysisState :=
  events.foldl (step cfg) initState

/-- The per-binding violation check shared verbatim by the require loop
(source lines 898-923) and the import loop (source lines 937-962): a
variable is in violation when it has no read references and
`reportUnusedImports` is set, or when some read reference lies outside
every server scope. -/
def variablesHaveViolation (reportUnusedImports : Bool)
    (serverFunctionScopes : List Nat) (vars : List Variable) : Bool :=
  vars.any fun v =>
    let valueReferences := v.references.filter fun r => r.isRead
    if valueReferences.isEmpty then reportUnusedImports
    else valueReferences.any fun reference =>
      !isInsideServerScope serverFunctionScopes reference.enclosingFnIds

/-- The message ids of emitted diagnostics (the suggestion message id
belongs to the suggestion objects, modelled by `FixResult`). -/
inductive MessageId where
  | serverOnlyImport
  | serverOnlyRequire
deriving DecidableEq, Repr

/-- An emitted diagnostic: message id, offending module, the id of the node
it is attributed to, and its suggestions. -/
structure Diagnostic where
  messageId : MessageId
  module : String
  nodeId : Nat
  suggest : List FixResult
deriving DecidableEq, Repr

/-- The `Program:exit` reconciliation (source lines 852-973): everything is
suppressed when the marker was seen; otherwise report side-effect imports
and re-exports unconditionally, bare requires outside every server scope,
tracked requires whose call site is outside every server scope and whose
variables are in violation, and tracked imports whose variables are in
violation. -/
def programExit (cfg : Config) (body : List Stmt)
    (markerRegexMatches : Bool) (s : AnalysisState) : List Diagnostic :=
  if s.hasServerOnlyImport then []
  else
    (s.sideEffectImportViolations.map fun v =>
      ⟨MessageId.serverOnlyImport, v.module, v.nodeId,
        createSideEffectImportSuggestions v.module body markerRegexMatches⟩)
    ++ (s.reexportViolations.map fun v =>
      ⟨MessageId.serverOnlyImport, v.module, v.nodeId,
        createReexportSuggestions body markerRegexMatches⟩)
    ++ ((s.bareRequireViolations.filter fun v =>
          !isInsideServerScope s.serverFunctionScopes v.enclosingFnIds).map
        fun v => ⟨MessageId.serverOnlyRequire, v.module, v.nodeId,
          createRequireSuggestions body markerRegexMatches⟩)
    ++ ((s.serverOnlyRequires.filter fun r =>
          !isInsideServerScope s.serverFunctionScopes r.enclosingFnIds &&
          variablesHaveViolation cfg.reportUnusedImports
            s.serverFunctionScopes r.vars).map
        fun r => ⟨MessageId.serverOnlyRequire, r.module, r.nodeId,
          createRequireSuggestions body markerRegexMatches⟩)
    ++ ((s.serverOnlyImports.filter fun i =>
          variablesHaveViolation cfg.reportUnusedImports
            s.serverFunctionScopes i.vars).map
        fun i => ⟨MessageId.serverOnlyImport, i.module, i.nodeId,
          createImportSuggestions body markerRegexMatches⟩)

/-- One full rule invocation on a file (the body of `create`, source lines
507-975): merge options, normalize the filename, gate on ignored files,
server files and the mode, then run the collection phase followed by the
`Program:exit` reconciliation. -/
def analyze (glob : List String → String → Bool) (options : RuleOptions)
    (file : SourceFile) : List Diagnostic :=
  if shouldIgnoreFile glob (mergeOptions options).ignoreFiles
      (replaceBackslashes file.rawFilename) then []
  else if isServerFile glob (mergeOptions options).serverFilePatterns
      (replaceBackslashes file.rawFilename) then []
  else if (mergeOptions options).mode = Mode.clientOnly
      && !isClientFile glob (mergeOptions options).clientFilePatterns
        (replaceBackslashes file.rawFilename) then []
  else programExit (mergeOptions options) file.body file.markerRegexMatches
    (runVisitor (mergeOptions options) file.events)

/-- Two consecutive rule invocations on the same unchanged file and
configuration. Each invocation is a fresh call of `create`: all mutable
state of the analysis is allocated inside `create` (source lines 542-553
and 688-711), which `analyze` mirrors by starting `runVisitor` from
`initState`, so no state survives from the first invocation into the
second. -/
def analyzeTwice (glob : List String → String → Bool)
    (options : RuleOptions) (file : SourceFile) :
    List Diagnostic × List Diagnostic :=
  (analyze glob options file, analyze glob options file)

/-- Whether one visitor event sets the `hasServerOnlyImport` flag: a
marker import or a marker `require()` with the marker check enabled. -/
def setsServerOnlyMarker (cfg : Config) : Event → Bool
  | Event.importDeclaration node =>
      cfg.checkServerOnlyMarker && node.source == LitVal.str "server-only"
  | Event.callExpression node =>
      match getRequireSource node.expr with
      | some requireSource =>
          cfg.checkServerOnlyMarker && requireSource == "server-only"
      | none => false
  | _ => false

/-- The `serverOnlyImports` entries one event contributes. -/
def importsContribution (cfg : Config) : Event → List ServerImport
  | Event.importDeclaration node =>
    if cfg.checkServerOnlyMarker && node.source == LitVal.str "server-only"
    then []
    else
      match node.source with
      | LitVal.nonStr => []
      | LitVal.str source =>
        if !isServerOnlyModule cfg.serverModules source then []
        else if !hasValueImportSpecifiers node then []
        else if node.specifiers.isEmpty then []
        else
          let valueNames := getValueImportNames node
          let vars := node.declaredVariables.filter fun v =>
            v.name ∈ valueNames
          if vars.length > 0 then [⟨source, node.nodeId, vars⟩] else []
  | _ => []

/-- The `serverFunctionScopes` entries one event contributes. -/
def scopesContribution (cfg : Config) : Event → List Nat
  | Event.callExpression node =>
    match getRequireSource node.expr with
    | some _ => []
    | none =>
      if !cfg.checkServerFunctions then []
      else
        match findServerFunctionCall cfg.serverFunctionNames node.expr with
        | some _ =>
            (extractCallbacksFromChain node.expr node.parent).filterMap
              callbackFnId
        | none => []
  | _ => []

/-- The `serverOnlyRequires` entries one event contributes. -/
def requiresContribution (cfg : Config) : Event → List ServerRequire
  | Event.callExpression node =>
    match getRequireSource node.expr with
    | some requireSource =>
      if cfg.checkServerOnlyMarker && requireSource == "server-only" then []
      else if isServerOnlyModule cfg.serverModules requireSource then
        match node.parent with
        | ParentCtx.varDeclarator (some vars) =>
          if vars.length > 0 then
            [⟨requireSource, node.nodeId, node.enclosingFnIds, vars⟩]
          else []
        | _ => []
      else []
    | none => []
  | _ => []

/-- The `bareRequireViolations` entries one event contributes. -/
def bareContribution (cfg : Config) : Event → List BareRequireViolation
  | Event.callExpression node =>
    match getRequireSource node.expr with
    | some requireSource =>
      if cfg.checkServerOnlyMarker && requireSource == "server-only" then []
      else if isServerOnlyModule cfg.serverModules requireSource then
        match node.parent with
        | ParentCtx.varDeclarator (some vars) =>
          if vars.length > 0 then []
          else [⟨node.nodeId, requireSource, node.enclosingFnIds⟩]
        | _ => [⟨node.nodeId, requireSource, node.enclosingFnIds⟩]
      else []
    | none => []
  | _ => []

/-- The `sideEffectImportViolations` entries one event contributes. -/
def sideEffectContribution (cfg : Config) :
    Event → List SideEffectImportViolation
  | Event.importDeclaration node =>
    if cfg.checkServerOnlyMarker && node.source == LitVal.str "server-only"
    then []
    else
      match node.source with
      | LitVal.nonStr => []
      | LitVal.str source =>
        if !isServerOnlyModule cfg.serverModules source then []
        else if !hasValueImportSpecifiers node then []
        else if node.specifiers.isEmpty then [⟨node.nodeId, source⟩]
        else []
  | _ => []

/-- The `reexportViolations` entries one event contributes. -/
def reexportContribution (cfg : Config) : Event → List ReexportViolation
  | Event.exportAllDeclaration node =>
    if node.exportKindIsType then []
    else
      match node.source with
      | LitVal.str source =>
        if isServerOnlyModule cfg.serverModules source then
          [⟨node.nodeId, source⟩]
        else []
      | LitVal.nonStr => []
  | Event.exportNamedDeclaration node =>
    match node.source with
    | none => []
    | some LitVal.nonStr => []
    | some (LitVal.str source) =>
      if !isServerOnlyModule cfg.serverModules source then []
      else if !hasValueExportSpecifiers node then []
      else [⟨node.nodeId, source⟩]
  | _ => []

/-- The node ids a visitor event can attribute diagnostics to (each
handler stores only its own node's id in the collected candidates). -/
def eventNodeIds : Event → List Nat
  | Event.importDeclaration d => [d.nodeId]
  | Event.callExpression c => [c.nodeId]
  | Event.exportAllDeclaration d => [d.nodeId]
  | Event.exportNamedDeclaration d => [d.nodeId]
  | Event.importExpression _ => []
  | Event.otherNode => []

/-- An event whose declaration is entirely type-only in the source's sense:
an import with no value specifiers, a named re-export with no value
specifiers, or a whole-declaration `export type *`. -/
def typeOnlyEvent : Event → Bool
  | Event.importDeclaration d => !hasValueImportSpecifiers d
  | Event.exportAllDeclaration d => d.exportKindIsType
  | Event.exportNamedDeclaration d => !hasValueExportSpecifiers d
  | _ => false

/-- Whether an event statically references a server-only module through one
of the syntactic forms the rule handles: a static import declaration, a
`require()` call with a string-literal argument, or an export-from
declaration. Dynamic `import()` expressions are never such a reference,
because the rule registers no handler for them. -/
def mentionsServerModuleStatically (cfg : Config) : Event → Bool
  | Event.importDeclaration node =>
      match node.source with
      | LitVal.str source => isServerOnlyModule cfg.serverModules source
      | LitVal.nonStr => false
  | Event.callExpression node =>
      match getRequireSource node.expr with
      | some requireSource =>
          isServerOnlyModule cfg.serverModules requireSource
      | none => false
  | Event.exportAllDeclaration node =>
      match node.source with
      | LitVal.str source => isServerOnlyModule cfg.serverModules source
      | LitVal.nonStr => false
  | Event.exportNamedDeclaration node =>
      match node.source with
      | some (LitVal.str source) =>
          isServerOnlyModule cfg.serverModules source
      | _ => false
  | Event.importExpression _ => false
  | Event.otherNode => false

/-- The parent context of the root call of a method chain: each link is a
member access (its property name) applied to the previous call, itself
called with the link's argument list; `tail` is the context of the
outermost call of the chain. -/
def chainUpCtx (links : List (String × List Expr)) (tail : ParentCtx) :
    ParentCtx :=
  match links with
  | [] => tail
  | (p, args) :: rest => ParentCtx.memberCall p args (chainUpCtx rest tail)

/-- A glob matcher that matches nothing (concrete capability instance used
by evaluation witnesses). -/
def globNever : List String → String → Bool := fun _ _ => false

/-- A glob matcher that matches everything. -/
def globAlways : List String → String → Bool := fun _ _ => true

/-- A glob matcher that matches exactly when the pattern list contains the
default server-directory pattern. -/
def globServerDir : List String → String → Bool :=
  fun patterns _ => decide ("**/server/**" ∈ patterns)

/-- Options selecting the `all-non-server` mode (everything else default). -/
def optsAllNonServer : RuleOptions := { mode := some Mode.allNonServer }

/-- Concrete fixture: a default import of `pino` with one top-level read. -/
def c1Import : ImportDecl :=
  ⟨0, LitVal.str "pino", false,
    [ImportSpecifier.importDefaultSpecifier "pino"],
    [⟨"pino", [⟨true, []⟩]⟩]⟩

/-- Concrete fixture file for the import-reporting witness. -/
def c1File : SourceFile :=
  ⟨"a.ts", [], false, [Event.importDeclaration c1Import]⟩

/-- Concrete fixture: the `server-only` marker import. -/
def c2Marker : ImportDecl := ⟨0, LitVal.str "server-only", false, [], []⟩

/-- Concrete fixture: a server-only import with an unconfined read. -/
def c2FsImport : ImportDecl :=
  ⟨1, LitVal.str "fs", false,
    [ImportSpecifier.importDefaultSpecifier "fs"],
    [⟨"fs", [⟨true, []⟩]⟩]⟩

/-- Concrete fixture file containing the marker plus an
otherwise-violating import. -/
def c2File : SourceFile :=
  ⟨"a.ts", [], false,
    [Event.importDeclaration c2Marker, Event.importDeclaration c2FsImport]⟩

/-- Concrete fixture file: a `createServerFn().handler(fn)` chain whose
root call is visited with one function argument (node id 7) on the chained
call. -/
def c3File : SourceFile :=
  ⟨"a.ts", [], false,
    [Event.callExpression
      ⟨0, Expr.call (Expr.ident "createServerFn") [],
        chainUpCtx [("handler", [Expr.fnExpr 7])] ParentCtx.otherParent,
        []⟩]⟩

/-- Options with one ignore glob configured. -/
def c5OptsIgnore : RuleOptions := { ignoreFiles := some ["**/a.ts"] }

/-- Concrete fixture file with a violating import, used to show gating
suppresses everything. -/
def c5File : SourceFile :=
  ⟨"a.ts", [], false,
    [Event.importDeclaration
      ⟨0, LitVal.str "fs", false,
        [ImportSpecifier.importDefaultSpecifier "fs"],
        [⟨"fs", [⟨true, []⟩]⟩]⟩]⟩

/-- Concrete fixture: a server-function chain call registering function
node 5 as a boundary scope. -/
def c6Chain : CallVisit :=
  ⟨1, Expr.call (Expr.ident "createServerFn") [Expr.fnExpr 5],
    ParentCtx.otherParent, []⟩

/-- Concrete fixture: a require of `fs` bound in a variable declarator, the
call site lying inside function node 5, while the binding's only read is at
top level (outside every scope). -/
def c6Require : CallVisit :=
  ⟨2, Expr.call (Expr.ident "require") [Expr.strLit "fs"],
    ParentCtx.varDeclarator (some [⟨"fs", [⟨true, []⟩]⟩]), [5]⟩

/-- Concrete fixture file for the confined-require witness. -/
def c6File : SourceFile :=
  ⟨"a.ts", [], false,
    [Event.callExpression c6Chain, Event.callExpression c6Require]⟩

/-- Concrete fixture: a type-only import of a server module. -/
def c8Import : ImportDecl :=
  ⟨3, LitVal.str "pino", true,
    [ImportSpecifier.importSpecifier true "Logger"], []⟩

/-- Concrete fixture file for the type-only witness. -/
def c8File : SourceFile :=
  ⟨"a.ts", [], false, [Event.importDeclaration c8Import]⟩

/-- Concrete fixture file whose only server-module reference is a dynamic
`import()` expression. -/
def c10File : SourceFile :=
  ⟨"a.ts", [], false,
    [Event.importExpression (LitVal.str "fs"), Event.otherNode,
      Event.importDeclaration
        ⟨0, LitVal.str "react", false,
          [ImportSpecifier.importDefaultSpecifier "react"],
          [⟨"react", []⟩]⟩]⟩

theorem step_hasServerOnlyImport (cfg : Config) (s : AnalysisState)
    (e : Event) : (step cfg s e).hasServerOnlyImport
      = (s.hasServerOnlyImport || setsServerOnlyMarker cfg e) := by
  cases e <;>
    simp only [step, setsServerOnlyMarker, stepImportDeclaration,
      stepCallExpression, stepExportAllDeclaration,
      stepExportNamedDeclaration, Bool.or_false] <;>
    (repeat' split) <;> simp_all

theorem step_serverOnlyImports (cfg : Config) (s : AnalysisState)
    (e : Event) : (step cfg s e).serverOnlyImports
      = s.serverOnlyImports ++ importsContribution cfg e := by
  cases e <;>
    simp only [step, importsContribution, stepImportDeclaration,
      stepCallExpression, stepExportAllDeclaration,
      stepExportNamedDeclaration, List.append_nil] <;>
    (repeat' split) <;> simp_all

theorem step_serverFunctionScopes (cfg : Config) (s : AnalysisState)
    (e : Event) : (step cfg s e).serverFunctionScopes
      = s.serverFunctionScopes ++ scopesContribution cfg e := by
  cases e <;>
    simp only [step, scopesContribution, stepImportDeclaration,
      stepCallExpression, stepExportAllDeclaration,
      stepExportNamedDeclaration, List.append_nil] <;>
    (repeat' split) <;> simp_all

theorem step_serverOnlyRequires (cfg : Config) (s : AnalysisState)
    (e : Event) : (step cfg s e).serverOnlyRequires
      = s.serverOnlyRequires ++ requiresContribution cfg e := by
  cases e <;>
    simp only [step, requiresContribution, stepImportDeclaration,
      stepCallExpression, stepExportAllDeclaration,
      stepExportNamedDeclaration, List.append_nil] <;>
    (repeat' split) <;> simp_all

theorem step_bareRequireViolations (cfg : Config) (s : AnalysisState)
    (e : Event) : (step cfg s e).bareRequireViolations
      = s.bareRequireViolations ++ bareContribution cfg e := by
  cases e <;>
    simp only [step, bareContribution, stepImportDeclaration,
      stepCallExpression, stepExportAllDeclaration,
      stepExportNamedDeclaration, List.append_nil] <;>
    (repeat' split) <;> simp_all

theorem step_sideEffectImportViolations (cfg : Config) (s : AnalysisState)
    (e : Event) : (step cfg s e).sideEffectImportViolations
      = s.sideEffectImportViolations ++ sideEffectContribution cfg e := by
  cases e <;>
    simp only [step, sideEffectContribution, stepImportDeclaration,
      stepCallExpression, stepExportAllDeclaration,
      stepExportNamedDeclaration, List.append_nil] <;>
    (repeat' split) <;> simp_all

theorem step_reexportViolations (cfg : Config) (s : AnalysisState)
    (e : Event) : (step cfg s e).reexportViolations
      = s.reexportViolations ++ reexportContribution cfg e := by
  cases e <;>
    simp only [step, reexportContribution, stepImportDeclaration,
      stepCallExpression, stepExportAllDeclaration,
      stepExportNamedDeclaration, List.append_nil] <;>
    (repeat' split) <;> simp_all

theorem runVisitor_hasServerOnlyImport (cfg : Config) (events : List Event) :
    (runVisitor cfg events).hasServerOnlyImport
      = events.any (setsServerOnlyMarker cfg) := by
  have h : ∀ (es : List Event) (s : AnalysisState),
      (es.foldl (step cfg) s).hasServerOnlyImport
        = (s.hasServerOnlyImport || es.any (setsServerOnlyMarker cfg)) := by
    intro es
    induction es with
    | nil => intro s; simp
    | cons e es ih =>
        intro s
        simp [List.foldl_cons, ih, step_hasServerOnlyImport, Bool.or_assoc]
  simpa [initState] using h events initState

theorem runVisitor_serverOnlyImports (cfg : Config) (events : List Event) :
    (runVisitor cfg events).serverOnlyImports
      = events.flatMap (importsContribution cfg) := by
  have h : ∀ (es : List Event) (s : AnalysisState),
      (es.foldl (step cfg) s).serverOnlyImports
        = s.serverOnlyImports ++ es.flatMap (importsContribution cfg) := by
    intro es
    induction es with
    | nil => intro s; simp
    | cons e es ih =>
        intro s
        simp [List.foldl_cons, ih, step_serverOnlyImports]
  simpa [initState] using h events initState

theorem runVisitor_serverFunctionScopes (cfg : Config) (events : List Event) :
    (runVisitor cfg events).serverFunctionScopes
      = events.flatMap (scopesContribution cfg) := by
  have h : ∀ (es : List Event) (s : AnalysisState),
      (es.foldl (step cfg) s).serverFunctionScopes
        = s.serverFunctionScopes ++ es.flatMap (scopesContribution cfg) := by
    intro es
    induction es with
    | nil => intro s; simp
    | cons e es ih =>
        intro s
        simp [List.foldl_cons, ih, step_serverFunctionScopes]
  simpa [initState] using h events initState

theorem runVisitor_serverOnlyRequires (cfg : Config) (events : List Event) :
    (runVisitor cfg events).serverOnlyRequires
      = events.flatMap (requiresContribution cfg) := by
  have h : ∀ (es : List Event) (s : AnalysisState),
      (es.foldl (step cfg) s).serverOnlyRequires
        = s.serverOnlyRequires ++ es.flatMap (requiresContribution cfg) := by
    intro es
    induction es with
    | nil => intro s; simp
    | cons e es ih =>
        intro s
        simp [List.foldl_cons, ih, step_serverOnlyRequires]
  simpa [initState] using h events initState

theorem runVisitor_bareRequireViolations (cfg : Config)
    (events : List Event) :
    (runVisitor cfg events).bareRequireViolations
      = events.flatMap (bareContribution cfg) := by
  have h : ∀ (es : List Event) (s : AnalysisState),
      (es.foldl (step cfg) s).bareRequireViolations
        = s.bareRequireViolations ++ es.flatMap (bareContribution cfg) := by
    intro es
    induction es with
    | nil => intro s; simp
    | cons e es ih =>
        intro s
        simp [List.foldl_cons, ih, step_bareRequireViolations]
  simpa [initState] using h events initState

theorem runVisitor_sideEffectImportViolations (cfg : Config)
    (events : List Event) :
    (runVisitor cfg events).sideEffectImportViolations
      = events.flatMap (sideEffectContribution cfg) := by
  have h : ∀ (es : List Event) (s : AnalysisState),
      (es.foldl (step cfg) s).sideEffectImportViolations
        = s.sideEffectImportViolations
            ++ es.flatMap (sideEffectContribution cfg) := by
    intro es
    induction es with
    | nil => intro s; simp
    | cons e es ih =>
        intro s
        simp [List.foldl_cons, ih, step_sideEffectImportViolations]
  simpa [initState] using h events initState

theorem runVisitor_reexportViolations (cfg : Config) (events : List Event) :
    (runVisitor cfg events).reexportViolations
      = events.flatMap (reexportContribution cfg) := by
  have h : ∀ (es : List Event) (s : AnalysisState),
      (es.foldl (step cfg) s).reexportViolations
        = s.reexportViolations ++ es.flatMap (reexportContribution cfg) := by
    intro es
    induction es with
    | nil => intro s; simp
    | cons e es ih =>
        intro s
        simp [List.foldl_cons, ih, step_reexportViolations]
  simpa [initState] using h events initState

theorem charsStartWith_of_append (p t : List Char) :
    charsStartWith (p ++ t) p = true := by
  induction p with
  | nil => cases t <;> rfl
  | cons c cs ih => simp [charsStartWith, ih]

theorem charsStartWith_exists {s p : List Char}
    (h : charsStartWith s p = true) : ∃ t, s = p ++ t := by
  induction p generalizing s with
  | nil => exact ⟨s, rfl⟩
  | cons c cs ih =>
      cases s with
      | nil => simp [charsStartWith] at h
      | cons a as =>
          simp only [charsStartWith, Bool.and_eq_true, beq_iff_eq] at h
          obtain ⟨t, ht⟩ := ih h.2
          exact ⟨t, by simp [h.1, ht]⟩

theorem string_data_append (a b : String) :
    (a ++ b).data = a.data ++ b.data := by
  cases a; cases b; rfl

theorem jsStartsWith_of_append (p t : String) :
    jsStartsWith (p ++ t) p = true := by
  unfold jsStartsWith
  rw [string_data_append]
  exact charsStartWith_of_append p.data t.data

theorem jsStartsWith_exists {x p : String}
    (h : jsStartsWith x p = true) : ∃ t, x = p ++ t := by
  obtain ⟨t, ht⟩ := charsStartWith_exists h
  refine ⟨String.mk t, ?_⟩
  cases x with
  | mk xd =>
      cases p with
      | mk pd =>
          show String.mk xd = String.mk pd ++ String.mk t
          have : String.mk pd ++ String.mk t = String.mk (pd ++ t) := rfl
          rw [this]
          exact congrArg String.mk ht

theorem slash_mem_data (m t : String) : '/' ∈ (m ++ "/" ++ t).data := by
  rw [string_data_append, string_data_append]
  exact List.mem_append.mpr (Or.inl (List.mem_append.mpr (Or.inr (by
    simp))))

/-- C4: for every configured server-module name `m`, `isServerOnlyModule`
classifies both `m` and `m ++ "/" ++ s` (for every suffix `s`) as
server-only; every specifier that is neither an exact member of the list
nor a list entry followed by `/` and a suffix is classified as not
server-only. -/
theorem c4_isServerOnlyModule_spec (mods : List String) :
    (∀ m ∈ mods, isServerOnlyModule mods m = true
      ∧ ∀ sfx : String, isServerOnlyModule mods (m ++ "/" ++ sfx) = true)
    ∧ (∀ x : String, x ∉ mods →
        (∀ m ∈ mods, ∀ sfx : String, x ≠ m ++ "/" ++ sfx) →
        isServerOnlyModule mods x = false) := by
  constructor
  · intro m hm
    constructor
    · simp [isServerOnlyModule, hm]
    · intro sfx
      unfold isServerOnlyModule
      split
      · rfl
      · rw [List.any_eq_true]
        exact ⟨m, hm, jsStartsWith_of_append (m ++ "/") sfx⟩
  · intro x hx hne
    unfold isServerOnlyModule
    split
    · exact absurd (by assumption) hx
    · rw [List.any_eq_false]
      intro m hm
      cases hsw : jsStartsWith x (m ++ "/")
      · simp
      · obtain ⟨t, ht⟩ := jsStartsWith_exists hsw
        exact absurd ht (hne m hm t)

/-- Witness for C4: evaluation of the classifier through the theorem at
concrete inputs. -/
theorem c4_witness :
    isServerOnlyModule DEFAULT_SERVER_MODULES "fs" = true
    ∧ isServerOnlyModule DEFAULT_SERVER_MODULES ("fs" ++ "/" ++ "promises")
        = true
    ∧ isServerOnlyModule DEFAULT_SERVER_MODULES "react" = false := by
  refine ⟨((c4_isServerOnlyModule_spec DEFAULT_SERVER_MODULES).1 "fs"
      (by decide)).1,
    ((c4_isServerOnlyModule_spec DEFAULT_SERVER_MODULES).1 "fs"
      (by decide)).2 "promises",
    (c4_isServerOnlyModule_spec DEFAULT_SERVER_MODULES).2 "react"
      (by decide) ?_⟩
  intro m hm sfx h
  exact (by decide : ¬ ('/' ∈ ("react" : String).data))
    (by rw [h]; exact slash_mem_data m sfx)

/-- C7: on a file whose entire body is directive prologues (with no marker
present and no `use client` directive), the suggested fix inserts the
marker at character range `[0, 0]` — the very beginning of the file, before
the directives — not at the end of the file as the specification (and the
comment in `findServerOnlyMarkerInsertNode`) states. -/
theorem c7_directive_only_file_inserts_at_start :
    createServerOnlyMarkerSuggestion
        [Stmt.stringLiteralStatement "use strict"] false
      = [FixResult.insertTextBeforeRange 0 "import \x27server-only\x27;\n"]
    ∧ findServerOnlyMarkerInsertNode
        [Stmt.stringLiteralStatement "use strict"] = none := by
  constructor <;> rfl

/-- C9: two consecutive rule invocations on the same unchanged file and
configuration produce identical diagnostic lists; `analyzeTwice` models the
second invocation as a fresh `create` call whose collection phase starts
again from `initState`, mirroring the source where every piece of mutable
analysis state is allocated inside `create` itself. -/
theorem c9_analysis_idempotent (glob : List String → String → Bool)
    (options : RuleOptions) (file : SourceFile) :
    (analyzeTwice glob options file).1 = (analyzeTwice glob options file).2 :=
  rfl

/-- C2: if the file contains the server-only marker import or require
(with the marker check enabled — the `setsServerOnlyMarker` predicate is
exactly the flag-setting condition of the two handlers), the analysis
reports no diagnostics at all. -/
theorem c2_marker_suppresses_all (glob : List String → String → Bool)
    (options : RuleOptions) (file : SourceFile)
    (h : ∃ e ∈ file.events,
      setsServerOnlyMarker (mergeOptions options) e = true) :
    analyze glob options file = [] := by
  have hflag : (runVisitor (mergeOptions options)
      file.events).hasServerOnlyImport = true := by
    rw [runVisitor_hasServerOnlyImport]
    exact List.any_eq_true.mpr h
  unfold analyze
  split
  · rfl
  · split
    · rfl
    · split
      · rfl
      · simp [programExit, hflag]

/-- Witness for C2: a file with the marker plus an otherwise-violating
`fs` import produces no diagnostics. -/
theorem c2_witness : analyze globNever optsAllNonServer c2File = [] :=
  c2_marker_suppresses_all globNever optsAllNonServer c2File
    ⟨Event.importDeclaration c2Marker, by simp [c2File], by decide⟩

/-- C5: a file whose normalized path matches an `ignoreFiles` glob, and a
file whose normalized path matches a `serverFilePatterns` glob (defaults
merged with user-supplied patterns by `mergeOptions`), produce no
diagnostics regardless of the file content. -/
theorem c5_ignored_and_server_files_silent
    (glob : List String → String → Bool) (options : RuleOptions)
    (file : SourceFile) :
    ((mergeOptions options).ignoreFiles ≠ []
      ∧ glob (mergeOptions options).ignoreFiles
          (replaceBackslashes file.rawFilename) = true →
      analyze glob options file = [])
    ∧ (glob (mergeOptions options).serverFilePatterns
          (replaceBackslashes file.rawFilename) = true →
      analyze glob options file = []) := by
  constructor
  · intro ⟨h1, h2⟩
    have hig : shouldIgnoreFile glob (mergeOptions options).ignoreFiles
        (replaceBackslashes file.rawFilename) = true := by
      unfold shouldIgnoreFile
      rw [if_pos]
      · exact h2
      · simp [List.isEmpty_iff, h1]
    simp only [analyze]
    rw [if_pos hig]
  · intro h2
    simp only [analyze]
    split
    · rfl
    · rw [if_pos]
      exact h2

/-- Witness for C5: both gating branches evaluated through the theorem on
concrete matchers and files with a violating import. -/
theorem c5_witness :
    analyze globAlways c5OptsIgnore c5File = []
    ∧ analyze globServerDir { } c5File = [] :=
  ⟨(c5_ignored_and_server_files_silent globAlways c5OptsIgnore c5File).1
      ⟨by decide, rfl⟩,
    (c5_ignored_and_server_files_silent globServerDir { } c5File).2
      (by decide)⟩

theorem flatMap_eq_nil_of_forall {α β : Type} (l : List α) (f : α → List β)
    (h : ∀ x ∈ l, f x = []) : l.flatMap f = [] := by
  induction l with
  | nil => rfl
  | cons a as ih =>
      simp only [List.flatMap_cons, h a (by simp), List.nil_append]
      exact ih fun x hx => h x (by simp [hx])

theorem importsContribution_nil_of_not_static (cfg : Config) (e : Event)
    (h : mentionsServerModuleStatically cfg e = false) :
    importsContribution cfg e = [] := by
  cases e <;>
    simp only [importsContribution, mentionsServerModuleStatically] at h ⊢ <;>
    (repeat' split) <;> simp_all

theorem sideEffectContribution_nil_of_not_static (cfg : Config) (e : Event)
    (h : mentionsServerModuleStatically cfg e = false) :
    sideEffectContribution cfg e = [] := by
  cases e <;>
    simp only [sideEffectContribution,
      mentionsServerModuleStatically] at h ⊢ <;>
    (repeat' split) <;> simp_all

theorem requiresContribution_nil_of_not_static (cfg : Config) (e : Event)
    (h : mentionsServerModuleStatically cfg e = false) :
    requiresContribution cfg e = [] := by
  cases e <;>
    simp only [requiresContribution, mentionsServerModuleStatically] at h ⊢ <;>
    (repeat' split) <;> simp_all

theorem bareContribution_nil_of_not_static (cfg : Config) (e : Event)
    (h : mentionsServerModuleStatically cfg e = false) :
    bareContribution cfg e = [] := by
  cases e <;>
    simp only [bareContribution, mentionsServerModuleStatically] at h ⊢ <;>
    (repeat' split) <;> simp_all

theorem reexportContribution_nil_of_not_static (cfg : Config) (e : Event)
    (h : mentionsServerModuleStatically cfg e = false) :
    reexportContribution cfg e = [] := by
  cases e <;>
    simp only [reexportContribution, mentionsServerModuleStatically] at h ⊢ <;>
    (repeat' split) <;> simp_all

/-- C10: a file none of whose events statically references a server-only
module — in particular a file whose only references to server-only modules
are dynamic `import()` expressions, for which the rule registers no
handler — produces no diagnostics. -/
theorem c10_dynamic_import_silent (glob : List String → String → Bool)
    (options : RuleOptions) (file : SourceFile)
    (h : ∀ e ∈ file.events,
      mentionsServerModuleStatically (mergeOptions options) e = false) :
    analyze glob options file = [] := by
  unfold analyze
  split
  · rfl
  · split
    · rfl
    · split
      · rfl
      · have hse : (runVisitor (mergeOptions options)
            file.events).sideEffectImportViolations = [] := by
          rw [runVisitor_sideEffectImportViolations]
          exact flatMap_eq_nil_of_forall _ _ fun e he =>
            sideEffectContribution_nil_of_not_static _ e (h e he)
        have hre : (runVisitor (mergeOptions options)
            file.events).reexportViolations = [] := by
          rw [runVisitor_reexportViolations]
          exact flatMap_eq_nil_of_forall _ _ fun e he =>
            reexportContribution_nil_of_not_static _ e (h e he)
        have hba : (runVisitor (mergeOptions options)
            file.events).bareRequireViolations = [] := by
          rw [runVisitor_bareRequireViolations]
          exact flatMap_eq_nil_of_forall _ _ fun e he =>
            bareContribution_nil_of_not_static _ e (h e he)
        have hrq : (runVisitor (mergeOptions options)
            file.events).serverOnlyRequires = [] := by
          rw [runVisitor_serverOnlyRequires]
          exact flatMap_eq_nil_of_forall _ _ fun e he =>
            requiresContribution_nil_of_not_static _ e (h e he)
        have him : (runVisitor (mergeOptions options)
            file.events).serverOnlyImports = [] := by
          rw [runVisitor_serverOnlyImports]
          exact flatMap_eq_nil_of_forall _ _ fun e he =>
            importsContribution_nil_of_not_static _ e (h e he)
        unfold programExit
        split
        · rfl
        · rw [hse, hre, hba, hrq, him]
          simp

/-- Witness for C10: a file whose only `fs` reference is a dynamic
`import()` expression (plus a harmless `react` import) yields no
diagnostics. -/
theorem c10_witness : analyze globNever optsAllNonServer c10File = [] :=
  c10_dynamic_import_silent globNever optsAllNonServer c10File (by decide)

theorem flatMap_middle_cases {α : Type} (f : Event → List α) (g : α → Nat)
    (hsub : ∀ e a, a ∈ f e → g a ∈ eventNodeIds e)
    (es₁ es₂ : List Event) (ev : Event) (a : α)
    (ha : a ∈ (es₁ ++ ev :: es₂).flatMap f) :
    a ∈ f ev ∨ g a ∈ (es₁ ++ es₂).flatMap eventNodeIds := by
  rcases List.mem_flatMap.mp ha with ⟨e, he, hae⟩
  rcases List.mem_append.mp he with h1 | h2
  · exact Or.inr (List.mem_flatMap.mpr
      ⟨e, List.mem_append.mpr (Or.inl h1), hsub e a hae⟩)
  · rcases List.mem_cons.mp h2 with rfl | h3
    · exact Or.inl hae
    · exact Or.inr (List.mem_flatMap.mpr
        ⟨e, List.mem_append.mpr (Or.inr h3), hsub e a hae⟩)

theorem importsContribution_nodeId (cfg : Config) (e : Event)
    (a : ServerImport) (h : a ∈ importsContribution cfg e) :
    a.nodeId ∈ eventNodeIds e := by
  cases e <;> simp only [importsContribution, eventNodeIds] at h ⊢ <;>
    (repeat' split at h) <;> simp_all

theorem sideEffectContribution_nodeId (cfg : Config) (e : Event)
    (a : SideEffectImportViolation) (h : a ∈ sideEffectContribution cfg e) :
    a.nodeId ∈ eventNodeIds e := by
  cases e <;> simp only [sideEffectContribution, eventNodeIds] at h ⊢ <;>
    (repeat' split at h) <;> simp_all

theorem requiresContribution_nodeId (cfg : Config) (e : Event)
    (a : ServerRequire) (h : a ∈ requiresContribution cfg e) :
    a.nodeId ∈ eventNodeIds e := by
  cases e <;> simp only [requiresContribution, eventNodeIds] at h ⊢ <;>
    (repeat' split at h) <;> simp_all

theorem bareContribution_nodeId (cfg : Config) (e : Event)
    (a : BareRequireViolation) (h : a ∈ bareContribution cfg e) :
    a.nodeId ∈ eventNodeIds e := by
  cases e <;> simp only [bareContribution, eventNodeIds] at h ⊢ <;>
    (repeat' split at h) <;> simp_all

theorem reexportContribution_nodeId (cfg : Config) (e : Event)
    (a : ReexportViolation) (h : a ∈ reexportContribution cfg e) :
    a.nodeId ∈ eventNodeIds e := by
  cases e <;> simp only [reexportContribution, eventNodeIds] at h ⊢ <;>
    (repeat' split at h) <;> simp_all

theorem importsContribution_nil_of_typeOnly (cfg : Config) (e : Event)
    (h : typeOnlyEvent e = true) : importsContribution cfg e = [] := by
  cases e <;> simp only [importsContribution, typeOnlyEvent] at h ⊢ <;>
    (repeat' split) <;> simp_all

theorem sideEffectContribution_nil_of_typeOnly (cfg : Config) (e : Event)
    (h : typeOnlyEvent e = true) : sideEffectContribution cfg e = [] := by
  cases e <;> simp only [sideEffectContribution, typeOnlyEvent] at h ⊢ <;>
    (repeat' split) <;> simp_all

theorem requiresContribution_nil_of_typeOnly (cfg : Config) (e : Event)
    (h : typeOnlyEvent e = true) : requiresContribution cfg e = [] := by
  cases e <;> simp only [requiresContribution, typeOnlyEvent] at h ⊢ <;>
    (repeat' split) <;> simp_all

theorem bareContribution_nil_of_typeOnly (cfg : Config) (e : Event)
    (h : typeOnlyEvent e = true) : bareContribution cfg e = [] := by
  cases e <;> simp only [bareContribution, typeOnlyEvent] at h ⊢ <;>
    (repeat' split) <;> simp_all

theorem reexportContribution_nil_of_typeOnly (cfg : Config) (e : Event)
    (h : typeOnlyEvent e = true) : reexportContribution cfg e = [] := by
  cases e <;> simp only [reexportContribution, typeOnlyEvent] at h ⊢ <;>
    (repeat' split) <;> simp_all

theorem mem_programExit_iff (cfg : Config) (body : List Stmt) (mrm : Bool)
    (s : AnalysisState) (diag : Diagnostic) :
    diag ∈ programExit cfg body mrm s ↔
      s.hasServerOnlyImport = false ∧
      ((∃ v ∈ s.sideEffectImportViolations,
          diag = ⟨MessageId.serverOnlyImport, v.module, v.nodeId,
            createSideEffectImportSuggestions v.module body mrm⟩) ∨
       (∃ v ∈ s.reexportViolations,
          diag = ⟨MessageId.serverOnlyImport, v.module, v.nodeId,
            createReexportSuggestions body mrm⟩) ∨
       (∃ v ∈ s.bareRequireViolations,
          (!isInsideServerScope s.serverFunctionScopes v.enclosingFnIds)
            = true ∧
          diag = ⟨MessageId.serverOnlyRequire, v.module, v.nodeId,
            createRequireSuggestions body mrm⟩) ∨
       (∃ r ∈ s.serverOnlyRequires,
          ((!isInsideServerScope s.serverFunctionScopes r.enclosingFnIds) &&
            variablesHaveViolation cfg.reportUnusedImports
              s.serverFunctionScopes r.vars) = true ∧
          diag = ⟨MessageId.serverOnlyRequire, r.module, r.nodeId,
            createRequireSuggestions body mrm⟩) ∨
       (∃ i ∈ s.serverOnlyImports,
          variablesHaveViolation cfg.reportUnusedImports
            s.serverFunctionScopes i.vars = true ∧
          diag = ⟨MessageId.serverOnlyImport, i.module, i.nodeId,
            createImportSuggestions body mrm⟩)) := by
  unfold programExit
  split
  · rename_i h
    simp [h]
  · rename_i h
    rw [Bool.not_eq_true] at h
    simp only [h, true_and, List.mem_append, List.mem_map, List.mem_filter]
    constructor
    · rintro ((((⟨v, hv, rfl⟩ | ⟨v, hv, rfl⟩) | ⟨v, ⟨hv, hc⟩, rfl⟩)
        | ⟨r, ⟨hr, hc⟩, rfl⟩) | ⟨i, ⟨hi, hc⟩, rfl⟩)
      · exact Or.inl ⟨v, hv, rfl⟩
      · exact Or.inr (Or.inl ⟨v, hv, rfl⟩)
      · exact Or.inr (Or.inr (Or.inl ⟨v, hv, hc, rfl⟩))
      · exact Or.inr (Or.inr (Or.inr (Or.inl ⟨r, hr, hc, rfl⟩)))
      · exact Or.inr (Or.inr (Or.inr (Or.inr ⟨i, hi, hc, rfl⟩)))
    · rintro (⟨v, hv, rfl⟩ | ⟨v, hv, rfl⟩ | ⟨v, hv, hc, rfl⟩
        | ⟨r, hr, hc, rfl⟩ | ⟨i, hi, hc, rfl⟩)
      · exact Or.inl (Or.inl (Or.inl (Or.inl ⟨v, hv, rfl⟩)))
      · exact Or.inl (Or.inl (Or.inl (Or.inr ⟨v, hv, rfl⟩)))
      · exact Or.inl (Or.inl (Or.inr ⟨v, ⟨hv, hc⟩, rfl⟩))
      · exact Or.inl (Or.inr ⟨r, ⟨hr, hc⟩, rfl⟩)
      · exact Or.inr ⟨i, ⟨hi, hc⟩, rfl⟩

/-- C8: an import declaration with no value specifiers (a whole-declaration
`import type` or one whose specifiers are all inline `type` specifiers), a
named re-export with no value specifiers, or an `export type *` declaration
never has any diagnostic attributed to its node, for every file,
configuration and matcher. -/
theorem c8_type_only_never_reported (glob : List String → String → Bool)
    (options : RuleOptions) (file : SourceFile) (e : Event)
    (es₁ es₂ : List Event)
    (hev : file.events = es₁ ++ e :: es₂)
    (htype : typeOnlyEvent e = true)
    (hfresh : ∀ i ∈ eventNodeIds e, i ∉ (es₁ ++ es₂).flatMap eventNodeIds) :
    ∀ diag ∈ analyze glob options file, diag.nodeId ∉ eventNodeIds e := by
  intro diag hd hmem
  unfold analyze at hd
  split at hd
  · exact absurd hd (List.not_mem_nil diag)
  · split at hd
    · exact absurd hd (List.not_mem_nil diag)
    · split at hd
      · exact absurd hd (List.not_mem_nil diag)
      · obtain ⟨hflag, hcases⟩ := (mem_programExit_iff _ _ _ _ _).mp hd
        rcases hcases with ⟨v, hv, heq⟩ | ⟨v, hv, heq⟩ | ⟨v, hv, _, heq⟩
          | ⟨r, hr, _, heq⟩ | ⟨i, hi, _, heq⟩
        · rw [runVisitor_sideEffectImportViolations, hev] at hv
          rcases flatMap_middle_cases _ (fun a => a.nodeId)
              (sideEffectContribution_nodeId _) es₁ es₂ e v hv with hl | hrr
          · rw [sideEffectContribution_nil_of_typeOnly _ _ htype] at hl
            exact absurd hl (List.not_mem_nil _)
          · exact hfresh diag.nodeId hmem (by rw [heq]; exact hrr)
        · rw [runVisitor_reexportViolations, hev] at hv
          rcases flatMap_middle_cases _ (fun a => a.nodeId)
              (reexportContribution_nodeId _) es₁ es₂ e v hv with hl | hrr
          · rw [reexportContribution_nil_of_typeOnly _ _ htype] at hl
            exact absurd hl (List.not_mem_nil _)
          · exact hfresh diag.nodeId hmem (by rw [heq]; exact hrr)
        · rw [runVisitor_bareRequireViolations, hev] at hv
          rcases flatMap_middle_cases _ (fun a => a.nodeId)
              (bareContribution_nodeId _) es₁ es₂ e v hv with hl | hrr
          · rw [bareContribution_nil_of_typeOnly _ _ htype] at hl
            exact absurd hl (List.not_mem_nil _)
          · exact hfresh diag.nodeId hmem (by rw [heq]; exact hrr)
        · rw [runVisitor_serverOnlyRequires, hev] at hr
          rcases flatMap_middle_cases _ (fun a => a.nodeId)
              (requiresContribution_nodeId _) es₁ es₂ e r hr with hl | hrr
          · rw [requiresContribution_nil_of_typeOnly _ _ htype] at hl
            exact absurd hl (List.not_mem_nil _)
          · exact hfresh diag.nodeId hmem (by rw [heq]; exact hrr)
        · rw [runVisitor_serverOnlyImports, hev] at hi
          rcases flatMap_middle_cases _ (fun a => a.nodeId)
              (importsContribution_nodeId _) es₁ es₂ e i hi with hl | hrr
          · rw [importsContribution_nil_of_typeOnly _ _ htype] at hl
            exact absurd hl (List.not_mem_nil _)
          · exact hfresh diag.nodeId hmem (by rw [heq]; exact hrr)

/-- Witness for C8: a type-only `pino` import (node id 3) receives no
diagnostic. -/
theorem c8_witness :
    (analyze globNever optsAllNonServer c8File).all
      (fun diag => diag.nodeId != 3) = true := by
  have h := c8_type_only_never_reported globNever optsAllNonServer c8File
    (Event.importDeclaration c8Import) [] [] rfl (by decide) (by decide)
  rw [List.all_eq_true]
  intro diag hdiag
  have h2 := h diag hdiag
  simp only [eventNodeIds, List.mem_singleton] at h2
  simpa using h2

/-- C6: when a server-only `require()` bound in a variable declarator has
its own call site inside some boundary scope, no diagnostic is attributed
to it, regardless of where its declared bindings are later read. -/
theorem c6_confined_require_not_reported
    (glob : List String → String → Bool) (options : RuleOptions)
    (file : SourceFile) (c : CallVisit) (es₁ es₂ : List Event) (m : String)
    (vs : List Variable)
    (hev : file.events = es₁ ++ Event.callExpression c :: es₂)
    (hreq : getRequireSource c.expr = some m)
    (hnm : ((mergeOptions options).checkServerOnlyMarker
      && m == "server-only") = false)
    (hsom : isServerOnlyModule (mergeOptions options).serverModules m = true)
    (hparent : c.parent = ParentCtx.varDeclarator (some vs))
    (hvs : 0 < vs.length)
    (hin : isInsideServerScope (runVisitor (mergeOptions options)
        file.events).serverFunctionScopes c.enclosingFnIds = true)
    (hfresh : c.nodeId ∉ (es₁ ++ es₂).flatMap eventNodeIds) :
    ∀ diag ∈ analyze glob options file, diag.nodeId ≠ c.nodeId := by
  intro diag hd hne
  have hreqc : requiresContribution (mergeOptions options)
      (Event.callExpression c) = [⟨m, c.nodeId, c.enclosingFnIds, vs⟩] := by
    simp [requiresContribution, hreq, hnm, hsom, hparent, hvs]
  have hbarec : bareContribution (mergeOptions options)
      (Event.callExpression c) = [] := by
    simp [bareContribution, hreq, hnm, hsom, hparent, hvs]
  unfold analyze at hd
  split at hd
  · exact absurd hd (List.not_mem_nil diag)
  · split at hd
    · exact absurd hd (List.not_mem_nil diag)
    · split at hd
      · exact absurd hd (List.not_mem_nil diag)
      · obtain ⟨hflag, hcases⟩ := (mem_programExit_iff _ _ _ _ _).mp hd
        rcases hcases with ⟨v, hv, heq⟩ | ⟨v, hv, heq⟩ | ⟨v, hv, _, heq⟩
          | ⟨r, hr, hc, heq⟩ | ⟨i, hi, _, heq⟩
        · rw [runVisitor_sideEffectImportViolations, hev] at hv
          rcases flatMap_middle_cases _ (fun a => a.nodeId)
              (sideEffectContribution_nodeId _) es₁ es₂ _ v hv with hl | hrr
          · exact absurd hl (by simp [sideEffectContribution])
          · have h9 : c.nodeId = v.nodeId := by rw [← hne, heq]
            exact hfresh (h9.symm ▸ hrr)
        · rw [runVisitor_reexportViolations, hev] at hv
          rcases flatMap_middle_cases _ (fun a => a.nodeId)
              (reexportContribution_nodeId _) es₁ es₂ _ v hv with hl | hrr
          · exact absurd hl (by simp [reexportContribution])
          · have h9 : c.nodeId = v.nodeId := by rw [← hne, heq]
            exact hfresh (h9.symm ▸ hrr)
        · rw [runVisitor_bareRequireViolations, hev] at hv
          rcases flatMap_middle_cases _ (fun a => a.nodeId)
              (bareContribution_nodeId _) es₁ es₂ _ v hv with hl | hrr
          · rw [hbarec] at hl
            exact absurd hl (List.not_mem_nil _)
          · have h9 : c.nodeId = v.nodeId := by rw [← hne, heq]
            exact hfresh (h9.symm ▸ hrr)
        · rw [runVisitor_serverOnlyRequires, hev] at hr
          rcases flatMap_middle_cases _ (fun a => a.nodeId)
              (requiresContribution_nodeId _) es₁ es₂ _ r hr with hl | hrr
          · rw [hreqc] at hl
            rcases List.mem_singleton.mp hl with rfl
            rw [Bool.and_eq_true, Bool.not_eq_true'] at hc
            exact absurd hin (by rw [hc.1]; exact Bool.false_ne_true)
          · have h9 : c.nodeId = r.nodeId := by rw [← hne, heq]
            exact hfresh (h9.symm ▸ hrr)
        · rw [runVisitor_serverOnlyImports, hev] at hi
          rcases flatMap_middle_cases _ (fun a => a.nodeId)
              (importsContribution_nodeId _) es₁ es₂ _ i hi with hl | hrr
          · exact absurd hl (by simp [importsContribution])
          · have h9 : c.nodeId = i.nodeId := by rw [← hne, heq]
            exact hfresh (h9.symm ▸ hrr)

/-- Witness for C6: the require of `fs` at node 2, whose call site lies
inside boundary scope 5, receives no diagnostic even though its binding's
only read is outside every scope. -/
theorem c6_witness :
    (analyze globNever optsAllNonServer c6File).all
      (fun diag => diag.nodeId != 2) = true := by
  have h := c6_confined_require_not_reported globNever optsAllNonServer
    c6File c6Require [Event.callExpression c6Chain] [] "fs"
    [⟨"fs", [⟨true, []⟩]⟩] rfl rfl (by decide) (by decide) rfl
    (by decide) (by decide) (by decide)
  rw [List.all_eq_true]
  intro diag hdiag
  simpa using h diag hdiag

theorem extract_chain_mem (links : List (String × List Expr)) :
    ∀ (c : Expr) (args : List Expr) (tail : ParentCtx) (x : Expr),
    (x ∈ args.filter isFunctionArg
      ∨ ∃ l ∈ links, x ∈ l.2.filter isFunctionArg) →
    x ∈ extractCallbacksFromChain (Expr.call c args)
      (chainUpCtx links tail) := by
  induction links with
  | nil =>
      intro c args tail x hx
      rcases hx with hx | ⟨l, hl, _⟩
      · cases tail <;> simp only [chainUpCtx, extractCallbacksFromChain] <;>
          first
            | exact hx
            | exact List.mem_append.mpr (Or.inl hx)
      · exact absurd hl (List.not_mem_nil l)
  | cons l ls ih =>
      intro c args tail x hx
      obtain ⟨p, la⟩ := l
      simp only [chainUpCtx, extractCallbacksFromChain]
      rcases hx with hx | ⟨l', hl', hx2⟩
      · exact List.mem_append.mpr (Or.inl hx)
      · rcases List.mem_cons.mp hl' with h9 | hl2
        · subst h9
          exact List.mem_append.mpr (Or.inr (ih _ _ tail x (Or.inl hx2)))
        · exact List.mem_append.mpr
            (Or.inr (ih _ _ tail x (Or.inr ⟨l', hl2, hx2⟩)))

/-- C3: when the host visits the root call of a method chain whose callee
is a bare identifier in the configured server-function-name list (and the
call is not a string-literal `require()`), every function-valued argument
of every call in the chain — the root call and each chained member call —
ends up registered in the boundary-scope set. -/
theorem c3_chain_callbacks_registered (options : RuleOptions)
    (file : SourceFile) (name : String) (args₀ : List Expr)
    (links : List (String × List Expr)) (tail : ParentCtx) (nid : Nat)
    (encl : List Nat)
    (hcheck : (mergeOptions options).checkServerFunctions = true)
    (hname : name ∈ (mergeOptions options).serverFunctionNames)
    (hreq : getRequireSource (Expr.call (Expr.ident name) args₀) = none)
    (hev : Event.callExpression
      ⟨nid, Expr.call (Expr.ident name) args₀, chainUpCtx links tail, encl⟩
      ∈ file.events) :
    ∀ fnId : Nat,
      (Expr.fnExpr fnId ∈ args₀ ∨ ∃ l ∈ links, Expr.fnExpr fnId ∈ l.2) →
      fnId ∈ (runVisitor (mergeOptions options)
        file.events).serverFunctionScopes := by
  intro fnId hfn
  rw [runVisitor_serverFunctionScopes]
  apply List.mem_flatMap.mpr
  refine ⟨_, hev, ?_⟩
  simp only [scopesContribution, hreq, hcheck, Bool.not_true,
    Bool.false_eq_true, if_false]
  have hfind : findServerFunctionCall
      (mergeOptions options).serverFunctionNames
      (Expr.call (Expr.ident name) args₀)
      = some (Expr.call (Expr.ident name) args₀) := by
    simp [findServerFunctionCall, hname]
  rw [hfind]
  apply List.mem_filterMap.mpr
  refine ⟨Expr.fnExpr fnId, ?_, rfl⟩
  apply extract_chain_mem
  rcases hfn with hfn | ⟨l, hl, hfn⟩
  · exact Or.inl (List.mem_filter.mpr ⟨hfn, rfl⟩)
  · exact Or.inr ⟨l, hl, List.mem_filter.mpr ⟨hfn, rfl⟩⟩

/-- Witness for C3: the function argument (node 7) passed to the chained
`.handler(...)` call of a visited `createServerFn()` root call is
registered as a boundary scope. -/
theorem c3_witness :
    7 ∈ (runVisitor (mergeOptions optsAllNonServer)
      c3File.events).serverFunctionScopes :=
  c3_chain_callbacks_registered optsAllNonServer c3File "createServerFn"
    [] [("handler", [Expr.fnExpr 7])] ParentCtx.otherParent 0 []
    (by decide) (by decide) rfl (List.mem_singleton.mpr rfl) 7
    (Or.inr ⟨("handler", [Expr.fnExpr 7]), List.mem_singleton.mpr rfl,
      List.mem_singleton.mpr rfl⟩)

theorem variablesHaveViolation_iff (ru : Bool) (scopes : List Nat)
    (vars : List Variable) :
    variablesHaveViolation ru scopes vars = true ↔
      ∃ v ∈ vars,
        (∃ r ∈ v.references.filter (fun r => r.isRead),
          isInsideServerScope scopes r.enclosingFnIds = false)
        ∨ (v.references.filter (fun r => r.isRead) = [] ∧ ru = true) := by
  unfold variablesHaveViolation
  rw [List.any_eq_true]
  constructor
  · rintro ⟨v, hv, hcond⟩
    refine ⟨v, hv, ?_⟩
    simp only at hcond
    by_cases he : (v.references.filter fun r => r.isRead).isEmpty = true
    · rw [if_pos he] at hcond
      exact Or.inr ⟨List.isEmpty_iff.mp he, hcond⟩
    · rw [if_neg he, List.any_eq_true] at hcond
      obtain ⟨r, hr, hb⟩ := hcond
      rw [Bool.not_eq_true'] at hb
      exact Or.inl ⟨r, hr, hb⟩
  · rintro ⟨v, hv, hcond⟩
    refine ⟨v, hv, ?_⟩
    simp only
    rcases hcond with ⟨r, hr, hb⟩ | ⟨hnil, hru⟩
    · have hne : ¬ (v.references.filter fun r => r.isRead).isEmpty
          = true := by
        rw [List.isEmpty_iff]
        intro h0
        rw [h0] at hr
        exact List.not_mem_nil r hr
      rw [if_neg hne, List.any_eq_true]
      exact ⟨r, hr, by rw [Bool.not_eq_true']; exact hb⟩
    · rw [if_pos (List.isEmpty_iff.mpr hnil)]
      exact hru

/-- C1: for an analyzed file (not ignored, not a server file, eligible
under the mode, and whose marker flag ends up unset), a value import of a
server-only module with at least one specifier has a `serverOnlyImport`
diagnostic attributed to it if and only if some tracked value binding
either has a read reference outside every boundary scope, or has zero read
references while `reportUnusedImports` is enabled. -/
theorem c1_import_reported_iff (glob : List String → String → Bool)
    (options : RuleOptions) (file : SourceFile) (d : ImportDecl)
    (es₁ es₂ : List Event) (m : String)
    (hev : file.events = es₁ ++ Event.importDeclaration d :: es₂)
    (hsrc : d.source = LitVal.str m)
    (hsom : isServerOnlyModule (mergeOptions options).serverModules m = true)
    (hval : hasValueImportSpecifiers d = true)
    (hspec : d.specifiers.isEmpty = false)
    (hignore : shouldIgnoreFile glob (mergeOptions options).ignoreFiles
      (replaceBackslashes file.rawFilename) = false)
    (hserver : isServerFile glob (mergeOptions options).serverFilePatterns
      (replaceBackslashes file.rawFilename) = false)
    (hmode : (mergeOptions options).mode = Mode.clientOnly →
      isClientFile glob (mergeOptions options).clientFilePatterns
        (replaceBackslashes file.rawFilename) = true)
    (hflag : (runVisitor (mergeOptions options)
      file.events).hasServerOnlyImport = false)
    (hfresh : d.nodeId ∉ (es₁ ++ es₂).flatMap eventNodeIds) :
    (∃ diag ∈ analyze glob options file,
        diag.messageId = MessageId.serverOnlyImport ∧ diag.module = m
          ∧ diag.nodeId = d.nodeId)
    ↔ (∃ v ∈ d.declaredVariables.filter
          (fun v => v.name ∈ getValueImportNames d),
        (∃ r ∈ v.references.filter (fun r => r.isRead),
          isInsideServerScope (runVisitor (mergeOptions options)
            file.events).serverFunctionScopes r.enclosingFnIds = false)
        ∨ (v.references.filter (fun r => r.isRead) = []
            ∧ (mergeOptions options).reportUnusedImports = true)) := by
  have hgate : analyze glob options file
      = programExit (mergeOptions options) file.body file.markerRegexMatches
        (runVisitor (mergeOptions options) file.events) := by
    unfold analyze
    rw [if_neg (by simp [hignore]), if_neg (by simp [hserver]), if_neg ?h3]
    case h3 =>
      intro hcond
      rw [Bool.and_eq_true, decide_eq_true_eq] at hcond
      rw [hmode hcond.1] at hcond
      exact absurd hcond.2 (by simp)
  have hmemev : Event.importDeclaration d ∈ file.events := by
    rw [hev]
    exact List.mem_append.mpr (Or.inr (List.mem_cons_self _ _))
  have hmark : setsServerOnlyMarker (mergeOptions options)
      (Event.importDeclaration d) = false := by
    cases h0 : setsServerOnlyMarker (mergeOptions options)
        (Event.importDeclaration d)
    · rfl
    · rw [runVisitor_hasServerOnlyImport,
        List.any_eq_true.mpr ⟨_, hmemev, h0⟩] at hflag
      exact absurd hflag (by simp)
  have hmarkcond : ¬((mergeOptions options).checkServerOnlyMarker = true
      ∧ m = "server-only") := by
    simpa [setsServerOnlyMarker, hsrc] using hmark
  have himp : importsContribution (mergeOptions options)
      (Event.importDeclaration d)
      = if 0 < (d.declaredVariables.filter
            (fun v => v.name ∈ getValueImportNames d)).length then
          [⟨m, d.nodeId, d.declaredVariables.filter
            (fun v => v.name ∈ getValueImportNames d)⟩]
        else [] := by
    simp [importsContribution, hmarkcond, hsrc, hsom, hval, hspec]
  have hsec : sideEffectContribution (mergeOptions options)
      (Event.importDeclaration d) = [] := by
    simp [sideEffectContribution, hmarkcond, hsrc, hsom, hval, hspec]
  constructor
  · rintro ⟨diag, hd, hmid, hmod, hnid⟩
    rw [hgate] at hd
    obtain ⟨_, hcases⟩ := (mem_programExit_iff _ _ _ _ _).mp hd
    rcases hcases with ⟨v, hv, heq⟩ | ⟨v, hv, heq⟩ | ⟨v, hv, _, heq⟩
      | ⟨r, hr, _, heq⟩ | ⟨i, hi, hc, heq⟩
    · rw [runVisitor_sideEffectImportViolations, hev] at hv
      rcases flatMap_middle_cases _ (fun a => a.nodeId)
          (sideEffectContribution_nodeId _) es₁ es₂ _ v hv with hl | hrr
      · rw [hsec] at hl
        exact absurd hl (List.not_mem_nil _)
      · have h9 : d.nodeId = v.nodeId := by rw [← hnid, heq]
        exact absurd (h9.symm ▸ hrr) hfresh
    · rw [runVisitor_reexportViolations, hev] at hv
      rcases flatMap_middle_cases _ (fun a => a.nodeId)
          (reexportContribution_nodeId _) es₁ es₂ _ v hv with hl | hrr
      · exact absurd hl (by simp [reexportContribution])
      · have h9 : d.nodeId = v.nodeId := by rw [← hnid, heq]
        exact absurd (h9.symm ▸ hrr) hfresh
    · rw [runVisitor_bareRequireViolations, hev] at hv
      rcases flatMap_middle_cases _ (fun a => a.nodeId)
          (bareContribution_nodeId _) es₁ es₂ _ v hv with hl | hrr
      · exact absurd hl (by simp [bareContribution])
      · have h9 : d.nodeId = v.nodeId := by rw [← hnid, heq]
        exact absurd (h9.symm ▸ hrr) hfresh
    · rw [runVisitor_serverOnlyRequires, hev] at hr
      rcases flatMap_middle_cases _ (fun a => a.nodeId)
          (requiresContribution_nodeId _) es₁ es₂ _ r hr with hl | hrr
      · exact absurd hl (by simp [requiresContribution])
      · have h9 : d.nodeId = r.nodeId := by rw [← hnid, heq]
        exact absurd (h9.symm ▸ hrr) hfresh
    · rw [runVisitor_serverOnlyImports, hev] at hi
      rcases flatMap_middle_cases _ (fun a => a.nodeId)
          (importsContribution_nodeId _) es₁ es₂ _ i hi with hl | hrr
      · rw [himp] at hl
        by_cases hlen : 0 < (d.declaredVariables.filter
            (fun v => v.name ∈ getValueImportNames d)).length
        · rw [if_pos hlen] at hl
          rcases List.mem_singleton.mp hl with rfl
          exact (variablesHaveViolation_iff _ _ _).mp hc
        · rw [if_neg hlen] at hl
          exact absurd hl (List.not_mem_nil _)
      · have h9 : d.nodeId = i.nodeId := by rw [← hnid, heq]
        exact absurd (h9.symm ▸ hrr) hfresh
  · intro hrhs
    have hVpos : 0 < (d.declaredVariables.filter
        (fun v => v.name ∈ getValueImportNames d)).length := by
      obtain ⟨v, hv, _⟩ := hrhs
      exact List.length_pos.mpr (List.ne_nil_of_mem hv)
    have hentry : (⟨m, d.nodeId, d.declaredVariables.filter
          (fun v => v.name ∈ getValueImportNames d)⟩ : ServerImport)
        ∈ (runVisitor (mergeOptions options)
            file.events).serverOnlyImports := by
      rw [runVisitor_serverOnlyImports, hev]
      refine List.mem_flatMap.mpr ⟨Event.importDeclaration d,
        List.mem_append.mpr (Or.inr (List.mem_cons_self _ _)), ?_⟩
      rw [himp, if_pos hVpos]
      exact List.mem_singleton.mpr rfl
    refine ⟨⟨MessageId.serverOnlyImport, m, d.nodeId,
      createImportSuggestions file.body file.markerRegexMatches⟩,
      ?_, rfl, rfl, rfl⟩
    rw [hgate]
    refine (mem_programExit_iff _ _ _ _ _).mpr ⟨hflag,
      Or.inr (Or.inr (Or.inr (Or.inr ⟨_, hentry, ?_, rfl⟩)))⟩
    exact (variablesHaveViolation_iff _ _ _).mpr hrhs

/-- Witness for C1: the unconfined top-level read of the `pino` import
(node 0) produces its `serverOnlyImport` diagnostic, through the theorem
at a concrete file. -/
theorem c1_witness :
    ∃ diag ∈ analyze globNever optsAllNonServer c1File,
      diag.messageId = MessageId.serverOnlyImport ∧ diag.module = "pino"
        ∧ diag.nodeId = 0 :=
  (c1_import_reported_iff globNever optsAllNonServer c1File c1Import
    [] [] "pino" rfl rfl (by decide) (by decide) (by decide) (by decide)
    (by decide) (by decide) (by decide) (by decide)).mpr (by decide)
